import Mathlib

/-!
# Coaster REST API (`main.go`): embedding and verified properties

The program is an in-memory HTTP store of roller coasters (`coastersHandler`) plus a
basic-auth gated admin page (`adminPortal`).

Modelling conventions.

* Go strings are Lean `String`s.
* The Go map `ch.store` is an association list; its order stands for whatever iteration
  order the Go runtime picks, and every theorem about a single call holds for every list.
* A handler is a function on an execution state `Exec`: the handler value (mutex flag and
  map), the `http.ResponseWriter`, a trace of the accesses it made and a panic flag.
  A handler runs alone from start to end; contention on the mutex is not modelled, but
  every access records whether the mutex was held at that moment.
* What the handlers obtain from outside the program is an input: the clock reading
  `time.Now().UnixNano()`, the raw value of the `math/rand` generator, the result of
  `json.Unmarshal`, of `ioutil.ReadAll(r.Body)` and of `r.BasicAuth()`.
-/

namespace CoasterAPI

/-! ## Data model -/

/-- The `Coaster` struct. -/
structure Coaster where
  Name : String
  Manufacturer : String
  ID : String
  InPark : String
  Height : Int
deriving DecidableEq, Repr

/-- The `coastersHandler` struct: the embedded `sync.Mutex` (as the flag "locked") and the
map `store`. -/
structure coastersHandler where
  locked : Bool
  store : List (String × Coaster)
deriving DecidableEq, Repr

/-- The function `newCoastersHandler`: an unlocked mutex and an empty map. -/
def newCoastersHandler : coastersHandler :=
  { locked := false, store := [] }

/-- The `adminPortal` struct. -/
structure adminPortal where
  password : String
deriving DecidableEq, Repr

/-! ## Go map operations -/

/-- Map index `m[k]` in its two-valued form: `some v` when the key is present. -/
def mapIndex : List (String × Coaster) → String → Option Coaster
  | [], _ => none
  | (k, v) :: rest, key => if k = key then some v else mapIndex rest key

/-- Map assignment `m[k] = v`: any entry under `k` is replaced. -/
def mapAssign (m : List (String × Coaster)) (k : String) (v : Coaster) :
    List (String × Coaster) :=
  (k, v) :: m.filter (fun kv => decide (kv.1 ≠ k))

/-! ## Library functions used by the handlers -/

/-- The call `fmt.Sprintf("%d", v)`: decimal digits, with a leading minus sign for a
negative value. -/
def fmtSprintfD (v : Int) : String :=
  match v with
  | Int.ofNat n => String.mk (Nat.toDigits 10 n)
  | Int.negSucc n => String.mk ('-' :: Nat.toDigits 10 (n + 1))

/-- Split a character list at every occurrence of a one-character separator. -/
def splitOnSep (sep : Char) : List Char → List (List Char)
  | [] => [[]]
  | c :: cs =>
    if c = sep then [] :: splitOnSep sep cs
    else
      match splitOnSep sep cs with
      | [] => [[c]]
      | p :: ps => (c :: p) :: ps

/-- The call `strings.Split(s, sep)` for a separator of one character. -/
def stringsSplit (s : String) (sep : Char) : List String :=
  (splitOnSep sep s.data).map String.mk

/-- The call `rand.Intn(n)` after `rand.Seed(seed)`: it panics (`none`) for `n = 0` and
otherwise yields a value below `n`, obtained from the raw value `source seed` of the
freshly seeded generator. -/
def randIntn (source : Int → Nat) (seed : Int) (n : Nat) : Option Nat :=
  if n = 0 then none else some (source seed % n)

/-- Two hexadecimal digits of a value below 256. -/
def hexByte (n : Nat) : List Char :=
  [Nat.digitChar (n / 16), Nat.digitChar (n % 16)]

/-- How `encoding/json` writes one character of a string (HTML escaping on): the quote and
the backslash get a backslash, newline, carriage return and tab their short escapes, the
other control characters and `<`, `>`, `&` the form `\u00XX`, and the line and paragraph
separators U+2028 and U+2029 the form `\u202X`. (Go 1.22 and later also use short
escapes for backspace and form feed.) -/
def jsonEscapeChar (c : Char) : List Char :=
  if c = Char.ofNat 34 then [Char.ofNat 92, Char.ofNat 34]
  else if c = Char.ofNat 92 then [Char.ofNat 92, Char.ofNat 92]
  else if c = Char.ofNat 10 then [Char.ofNat 92, 'n']
  else if c = Char.ofNat 13 then [Char.ofNat 92, 'r']
  else if c = Char.ofNat 9 then [Char.ofNat 92, 't']
  else if c.toNat < 32 ∨ c = '<' ∨ c = '>' ∨ c = '&' then
    [Char.ofNat 92, 'u', '0', '0'] ++ hexByte c.toNat
  else if c = Char.ofNat 8232 then [Char.ofNat 92, 'u', '2', '0', '2', '8']
  else if c = Char.ofNat 8233 then [Char.ofNat 92, 'u', '2', '0', '2', '9']
  else [c]

/-- A JSON string literal. -/
def jsonString (s : String) : String :=
  String.mk (Char.ofNat 34 :: (s.data.flatMap jsonEscapeChar ++ [Char.ofNat 34]))

/-- The members `encoding/json` writes for a `Coaster`: every field carries `omitempty`,
so an empty string and a zero height are left out. -/
def jsonMembers (c : Coaster) : List String :=
  (if c.Name = "" then [] else [jsonString "name" ++ ":" ++ jsonString c.Name]) ++
  (if c.Manufacturer = "" then []
    else [jsonString "manufacturer" ++ ":" ++ jsonString c.Manufacturer]) ++
  (if c.ID = "" then [] else [jsonString "id" ++ ":" ++ jsonString c.ID]) ++
  (if c.InPark = "" then [] else [jsonString "inPark" ++ ":" ++ jsonString c.InPark]) ++
  (if c.Height = 0 then [] else [jsonString "height" ++ ":" ++ fmtSprintfD c.Height])

/-- The JSON object of one `Coaster`. -/
def jsonObject (c : Coaster) : String :=
  "\x7b" ++ ",".intercalate (jsonMembers c) ++ "\x7d"

/-- The call `json.Marshal(coaster)`. A struct of strings and an int has no value that
`encoding/json` refuses, so the result is never an error. -/
def jsonMarshalCoaster (c : Coaster) : Except String String :=
  .ok (jsonObject c)

/-- The call `json.Marshal(coasters)` on a non-nil slice. -/
def jsonMarshalCoasters (cs : List Coaster) : Except String String :=
  .ok ("[" ++ ",".intercalate (cs.map jsonObject) ++ "]")

/-! ## Requests, responses and the outside world -/

/-- The part of `*http.Request` the handlers read. Header names are kept in the spelling
the source uses (HTTP header names are case-insensitive). -/
structure Request where
  Method : String
  Path : String
  Header : List (String × String)
  Body : Except String String
  BasicAuth : String × String × Bool

/-- The call `Header.Get(key)`: the first value stored under the key, or the empty
string. -/
def headerGet : List (String × String) → String → String
  | [], _ => ""
  | (k, v) :: rest, key => if k = key then v else headerGet rest key

/-- What a handler call obtains from outside the program. -/
structure Oracle where
  unixNano : Int
  randSource : Int → Nat
  jsonUnmarshal : String → Except String Coaster

def StatusOK : Nat := 200
def StatusFound : Nat := 302
def StatusBadRequest : Nat := 400
def StatusUnauthorized : Nat := 401
def StatusNotFound : Nat := 404
def StatusMethodNotAllowed : Nat := 405
def StatusUnsupportedMediaType : Nat := 415
def StatusInternalServerError : Nat := 500

/-- The state of an `http.ResponseWriter`: the header map, the status line once it has
been written together with the headers sent with it, and the body written so far. -/
structure ResponseWriter where
  header : List (String × String)
  wrote : Option (Nat × List (String × String))
  body : String
deriving DecidableEq, Repr

/-- A writer nothing has been written to. -/
def ResponseWriter.new : ResponseWriter :=
  { header := [], wrote := none, body := "" }

/-- The call `w.Header().Add(key, value)`. -/
def ResponseWriter.HeaderAdd (w : ResponseWriter) (key value : String) : ResponseWriter :=
  { w with header := w.header ++ [(key, value)] }

/-- The call `w.WriteHeader(code)`: only the first call counts. -/
def ResponseWriter.WriteHeader (w : ResponseWriter) (code : Nat) : ResponseWriter :=
  match w.wrote with
  | some _ => w
  | none => { w with wrote := some (code, w.header) }

/-- The call `w.Write(data)`: it sends status 200 first when no status was written. -/
def ResponseWriter.Write (w : ResponseWriter) (data : String) : ResponseWriter :=
  let w := w.WriteHeader StatusOK
  { w with body := w.body ++ data }

/-- The response a client receives. -/
structure Response where
  status : Nat
  header : List (String × String)
  body : String
deriving DecidableEq, Repr

/-- The response sent when the handler returns: status 200 if it wrote none. -/
def ResponseWriter.response (w : ResponseWriter) : Response :=
  match w.wrote with
  | some (code, hdr) => { status := code, header := hdr, body := w.body }
  | none => { status := StatusOK, header := w.header, body := w.body }

/-! ## Execution state and instrumented primitives -/

/-- One step of a handler that matters for the lock discipline; `held` is the state of
the mutex at that moment. -/
inductive Event where
  | lock
  | unlock
  | mapRead (held : Bool)
  | mapWrite (key : String) (held : Bool)
  | marshal (held : Bool)
  | respond (held : Bool)
deriving DecidableEq, Repr

/-- The state of one handler call. -/
structure Exec where
  ch : coastersHandler
  w : ResponseWriter
  trace : List Event
  panicked : Bool
deriving DecidableEq, Repr

/-- The state in which the server calls a handler. -/
def Exec.start (ch : coastersHandler) : Exec :=
  { ch := ch, w := ResponseWriter.new, trace := [], panicked := false }

def Exec.log (e : Exec) (ev : Event) : Exec :=
  { e with trace := e.trace ++ [ev] }

/-- A run-time panic. -/
def Exec.panic (e : Exec) : Exec :=
  { e with panicked := true }

/-- The call `ch.Lock()`. -/
def Exec.Lock (e : Exec) : Exec :=
  { e with ch := { e.ch with locked := true }, trace := e.trace ++ [Event.lock] }

/-- The call `ch.Unlock()`. -/
def Exec.Unlock (e : Exec) : Exec :=
  { e with ch := { e.ch with locked := false }, trace := e.trace ++ [Event.unlock] }

/-- The expression `len(ch.store)`. -/
def Exec.storeLen (e : Exec) : Nat × Exec :=
  (e.ch.store.length, e.log (.mapRead e.ch.locked))

/-- The entries a `range ch.store` loop visits. -/
def Exec.storeRange (e : Exec) : List (String × Coaster) × Exec :=
  (e.ch.store, e.log (.mapRead e.ch.locked))

/-- The expression `ch.store[id]`. -/
def Exec.storeIndex (e : Exec) (id : String) : Option Coaster × Exec :=
  (mapIndex e.ch.store id, e.log (.mapRead e.ch.locked))

/-- The statement `ch.store[id] = c`. -/
def Exec.storeAssign (e : Exec) (id : String) (c : Coaster) : Exec :=
  { e with ch := { e.ch with store := mapAssign e.ch.store id c },
           trace := e.trace ++ [Event.mapWrite id e.ch.locked] }

/-- A call of `json.Marshal`, whose result is `res`. -/
def Exec.marshal (e : Exec) (res : Except String String) : Except String String × Exec :=
  (res, e.log (.marshal e.ch.locked))

def Exec.HeaderAdd (e : Exec) (key value : String) : Exec :=
  { e with w := e.w.HeaderAdd key value, trace := e.trace ++ [Event.respond e.ch.locked] }

def Exec.WriteHeader (e : Exec) (code : Nat) : Exec :=
  { e with w := e.w.WriteHeader code, trace := e.trace ++ [Event.respond e.ch.locked] }

def Exec.Write (e : Exec) (data : String) : Exec :=
  { e with w := e.w.Write data, trace := e.trace ++ [Event.respond e.ch.locked] }

/-- The loop `for k, _ := range ch.store { ids = append(ids, k) }` on an empty `ids`. -/
def rangeKeys (entries : List (String × Coaster)) : List String :=
  entries.foldl (fun ids kv => ids ++ [kv.1]) []

/-- The loop `for _, c := range ch.store { coasters = append(coasters, c) }` on an empty
`coasters`. -/
def rangeValues (entries : List (String × Coaster)) : List Coaster :=
  entries.foldl (fun cs kv => cs ++ [kv.2]) []

/-! ## The handlers -/

/-- The method `coastersHandler.getRandomCoaster`. -/
def getRandomCoaster (o : Oracle) (_r : Request) (e : Exec) : Exec :=
  let n := e.storeLen
  let e := n.2.Lock
  let rng := e.storeRange
  let ids := rangeKeys rng.1
  let e := rng.2.Unlock
  if ids.length = 0 then
    e.WriteHeader StatusNotFound
  else
    match randIntn o.randSource o.unixNano ids.length with
    | none => e.panic
    | some i =>
      match ids.get? i with
      | none => e.panic
      | some id =>
        let e := e.HeaderAdd "location" ("/coasters/" ++ id)
        e.WriteHeader StatusFound

/-- The method `coastersHandler.getCoaster`. When `json.Marshal` fails the source writes
status 500 and the error text and then, having no `return`, goes on to the lines below
with `data` nil. -/
def getCoaster (o : Oracle) (r : Request) (e : Exec) : Exec :=
  let parts := stringsSplit r.Path '/'
  if parts.length ≠ 3 then
    e.WriteHeader StatusNotFound
  else
    match parts.get? 2 with
    | none => e.panic
    | some id =>
      if id = "random" then
        getRandomCoaster o r e
      else
        let e := e.Lock
        let found := e.storeIndex id
        let e := found.2.Unlock
        match found.1 with
        | none => e.WriteHeader StatusNotFound
        | some coaster =>
          let m := e.marshal (jsonMarshalCoaster coaster)
          let e := m.2
          match m.1 with
          | .error err =>
            let e := e.WriteHeader StatusInternalServerError
            let e := e.Write err
            let e := e.HeaderAdd "content-type" "application/json"
            let e := e.WriteHeader StatusOK
            e.Write ""
          | .ok data =>
            let e := e.HeaderAdd "content-type" "application/json"
            let e := e.WriteHeader StatusOK
            e.Write data

/-- The method `coastersHandler.get`. As in `getCoaster`, the error branch of
`json.Marshal` has no `return`. -/
def get (_r : Request) (e : Exec) : Exec :=
  let n := e.storeLen
  let e := n.2.Lock
  let rng := e.storeRange
  let coasters := rangeValues rng.1
  let e := rng.2.Unlock
  let m := e.marshal (jsonMarshalCoasters coasters)
  let e := m.2
  match m.1 with
  | .error err =>
    let e := e.WriteHeader StatusInternalServerError
    let e := e.Write err
    let e := e.HeaderAdd "content-type" "application/json"
    let e := e.WriteHeader StatusOK
    e.Write ""
  | .ok data =>
    let e := e.HeaderAdd "content-type" "application/json"
    let e := e.WriteHeader StatusOK
    e.Write data

/-- The method `coastersHandler.post`. -/
def post (o : Oracle) (r : Request) (e : Exec) : Exec :=
  match r.Body with
  | .error err =>
    let e := e.WriteHeader StatusInternalServerError
    e.Write err
  | .ok data =>
    let ct := headerGet r.Header "content-type"
    if ct ≠ "application/json" then
      let e := e.WriteHeader StatusUnsupportedMediaType
      e.Write ("expected content-type 'application/json', got '" ++ ct ++ "'")
    else
      match o.jsonUnmarshal data with
      | .error err =>
        let e := e.WriteHeader StatusBadRequest
        e.Write err
      | .ok coaster =>
        let coaster := { coaster with ID := fmtSprintfD o.unixNano }
        let e := e.Lock
        let e := e.storeAssign coaster.ID coaster
        e.Unlock

/-- The method `coastersHandler.coasters`. -/
def coasters (o : Oracle) (r : Request) (e : Exec) : Exec :=
  if r.Method = "GET" then get r e
  else if r.Method = "POST" then post o r e
  else
    let e := e.WriteHeader StatusMethodNotAllowed
    e.Write "method not allowed"

/-- The method `adminPortal.handler`. -/
def adminPortal.handler (ap : adminPortal) (r : Request) (w : ResponseWriter) :
    ResponseWriter :=
  let username := r.BasicAuth.1
  let password := r.BasicAuth.2.1
  let ok := r.BasicAuth.2.2
  if !ok || username ≠ "admin" || password ≠ ap.password then
    let w := w.WriteHeader StatusUnauthorized
    w.Write "Unauthorized"
  else
    w.Write "Welcome admin."

/-! ## Sequences of calls -/

/-- Serve a sequence of POST requests one after the other, each with its own view of the
outside world and a fresh writer. The result is the handler value after the last call and,
for every call in order, the call with the state in which it ended. -/
def servePosts : coastersHandler → List (Oracle × Request) →
    coastersHandler × List ((Oracle × Request) × Exec)
  | ch, [] => (ch, [])
  | ch, call :: rest =>
    let e := post call.1 call.2 (Exec.start ch)
    let r := servePosts e.ch rest
    (r.1, (call, e) :: r.2)

/-- The id a call assigned: the key of the map write in its trace. -/
def assignedID (e : Exec) : Option String :=
  e.trace.findSome? (fun ev =>
    match ev with
    | .mapWrite key _ => some key
    | _ => none)

/-- A call succeeded when its response carries status 200. -/
def succeeded (e : Exec) : Bool :=
  e.w.response.status == StatusOK

/-- One call of a handler that works on the store. -/
inductive Call where
  | get (r : Request)
  | getCoaster (o : Oracle) (r : Request)
  | getRandomCoaster (o : Oracle) (r : Request)
  | post (o : Oracle) (r : Request)
  | coasters (o : Oracle) (r : Request)

/-- Run one call from a given state. -/
def Call.run : Call → Exec → Exec
  | .get r, e => CoasterAPI.get r e
  | .getCoaster o r, e => CoasterAPI.getCoaster o r e
  | .getRandomCoaster o r, e => CoasterAPI.getRandomCoaster o r e
  | .post o r, e => CoasterAPI.post o r e
  | .coasters o r, e => CoasterAPI.coasters o r e

/-- Serve a sequence of calls one after the other, each on a fresh writer; the result is
the handler value after the last call. -/
def serve (ch : coastersHandler) (calls : List Call) : coastersHandler :=
  calls.foldl (fun ch call => (call.run (Exec.start ch)).ch) ch

/-- The lock discipline on one event: the map is touched only with the mutex held, JSON is
produced and the response is written only with the mutex free. -/
def Event.disciplined : Event → Bool
  | .lock => true
  | .unlock => true
  | .mapRead held => held
  | .mapWrite _ held => held
  | .marshal held => !held
  | .respond held => !held

/-- The lock discipline on a whole trace. -/
def lockDiscipline (trace : List Event) : Bool :=
  trace.all Event.disciplined

/-! ## Concrete inputs -/

/-- The payload of the scenario in the specification. -/
def furyBody : String :=
  "\x7b\"name\":\"Fury 325\",\"manufacturer\":\"B&M\",\"inPark\":\"Carowinds\",\"height\":99\x7d"

/-- What `json.Unmarshal` decodes `furyBody` to. -/
def fury : Coaster :=
  { Name := "Fury 325", Manufacturer := "B&M", ID := "", InPark := "Carowinds", Height := 99 }

/-- A second payload. -/
def kingdaBody : String :=
  "\x7b\"name\":\"Kingda Ka\",\"manufacturer\":\"Intamin\",\"height\":139\x7d"

/-- What `json.Unmarshal` decodes `kingdaBody` to. -/
def kingda : Coaster :=
  { Name := "Kingda Ka", Manufacturer := "Intamin", ID := "", InPark := "", Height := 139 }

/-- A decoder that agrees with `json.Unmarshal` on the two payloads above and on the text
`nonsense`, which is not JSON; it is not used on any other text. -/
def sampleUnmarshal (data : String) : Except String Coaster :=
  if data = furyBody then .ok fury
  else if data = kingdaBody then .ok kingda
  else .error "invalid character 'o' in literal null (expecting 'u')"

/-- The outside world at clock reading `now`, with a generator whose raw value is `raw`. -/
def sampleOracle (now : Int) (raw : Nat) : Oracle :=
  { unixNano := now, randSource := fun _ => raw, jsonUnmarshal := sampleUnmarshal }

/-- A request `POST /coasters` with the given content type and body. -/
def postRequest (contentType body : String) : Request :=
  { Method := "POST", Path := "/coasters", Header := [("content-type", contentType)],
    Body := .ok body, BasicAuth := ("", "", false) }

/-- A request `GET path` without headers or body. -/
def getRequest (path : String) : Request :=
  { Method := "GET", Path := path, Header := [], Body := .ok "", BasicAuth := ("", "", false) }

/-- A store holding the scenario's coaster under the id `1600000000000000000`. -/
def furyStore : coastersHandler :=
  { locked := false,
    store := [("1600000000000000000", { fury with ID := "1600000000000000000" })] }

/-! ## Auxiliary definitions for the proofs -/

/-- Value of a list of decimal digit characters, most significant first. -/
def decimalValue (ds : List Char) : Nat :=
  ds.foldl (fun v c => 10 * v + (c.toNat - 48)) 0

/-- A character of a decimal numeral: a digit or the minus sign. -/
def isNumeralChar (c : Char) : Bool :=
  c.isDigit || c == '-'

/-- The payload of a POST request that passes the three checks of `post`: the body was
read, the content type is `application/json` and the body decodes. -/
def accepted (o : Oracle) (r : Request) : Option Coaster :=
  match r.Body with
  | .error _ => none
  | .ok data =>
    if headerGet r.Header "content-type" ≠ "application/json" then none
    else
      match o.jsonUnmarshal data with
      | .error _ => none
      | .ok c => some c

/-- The record `post` stores for a decoded payload and a clock reading. -/
def storedRecord (c : Coaster) (now : Int) : Coaster :=
  { c with ID := fmtSprintfD now }

/-- The map entry an accepted call writes, `none` for a rejected call. -/
def writtenEntry (call : Oracle × Request) : Option (String × Coaster) :=
  (accepted call.1 call.2).map
    (fun c => (fmtSprintfD call.1.unixNano, storedRecord c call.1.unixNano))

/-- The map entries the accepted calls of a sequence write, in order. -/
def writtenEntries (calls : List (Oracle × Request)) : List (String × Coaster) :=
  calls.filterMap writtenEntry

/-! ## Lemmas on the library functions -/

theorem digitChar_isDigit (k : Nat) (hk : k < 10) :
    (Nat.digitChar k).isDigit = true ∧ (Nat.digitChar k).toNat - 48 = k := by
  interval_cases k <;> decide

theorem decimalValue_append (ds : List Char) (c : Char) :
    decimalValue (ds ++ [c]) = 10 * decimalValue ds + (c.toNat - 48) := by
  simp [decimalValue, List.foldl_append]

theorem toDigitsCore_spec : ∀ (fuel n : Nat) (acc : List Char), n < fuel →
    ∃ ds, Nat.toDigitsCore 10 fuel n acc = ds ++ acc ∧ decimalValue ds = n ∧
      ∀ c ∈ ds, c.isDigit = true := by
  intro fuel
  induction fuel with
  | zero => intro n acc h; omega
  | succ fuel ih =>
    intro n acc h
    have hd := digitChar_isDigit (n % 10) (Nat.mod_lt _ (by decide))
    by_cases h0 : n / 10 = 0
    · refine ⟨[Nat.digitChar (n % 10)], ?_, ?_, ?_⟩
      · simp [Nat.toDigitsCore, h0]
      · have hn : n % 10 = n := by omega
        show 10 * 0 + ((Nat.digitChar (n % 10)).toNat - 48) = n
        rw [hd.2]; omega
      · intro c hc
        simp at hc
        rw [hc]; exact hd.1
    · obtain ⟨ds, h1, h2, h3⟩ := ih (n / 10) (Nat.digitChar (n % 10) :: acc) (by omega)
      refine ⟨ds ++ [Nat.digitChar (n % 10)], ?_, ?_, ?_⟩
      · simp [Nat.toDigitsCore, h0, h1]
      · rw [decimalValue_append, h2, hd.2]; omega
      · intro c hc
        rcases List.mem_append.1 hc with hc | hc
        · exact h3 c hc
        · simp at hc
          rw [hc]; exact hd.1

theorem toDigits_spec (n : Nat) :
    decimalValue (Nat.toDigits 10 n) = n ∧ ∀ c ∈ Nat.toDigits 10 n, c.isDigit = true := by
  obtain ⟨ds, h1, h2, h3⟩ := toDigitsCore_spec (n + 1) n [] (Nat.lt_succ_self n)
  simp only [List.append_nil] at h1
  unfold Nat.toDigits
  rw [h1]
  exact ⟨h2, h3⟩

theorem fmtSprintfD_chars (v : Int) : ∀ c ∈ (fmtSprintfD v).data, isNumeralChar c = true := by
  intro c hc
  cases v with
  | ofNat n =>
    simp only [fmtSprintfD] at hc
    simp [isNumeralChar, (toDigits_spec n).2 c hc]
  | negSucc n =>
    simp only [fmtSprintfD, List.mem_cons] at hc
    rcases hc with hc | hc
    · subst hc; decide
    · simp [isNumeralChar, (toDigits_spec (n + 1)).2 c hc]

theorem fmtSprintfD_injective (a b : Int) (h : fmtSprintfD a = fmtSprintfD b) : a = b := by
  have hdata : (fmtSprintfD a).data = (fmtSprintfD b).data := by rw [h]
  cases a with
  | ofNat n =>
    cases b with
    | ofNat m =>
      simp only [fmtSprintfD] at hdata
      have := congrArg decimalValue hdata
      rw [(toDigits_spec n).1, (toDigits_spec m).1] at this
      rw [this]
    | negSucc m =>
      simp only [fmtSprintfD] at hdata
      have hm : '-' ∈ Nat.toDigits 10 n := by rw [hdata]; exact List.mem_cons_self _ _
      have := (toDigits_spec n).2 _ hm
      exact absurd this (by decide)
  | negSucc n =>
    cases b with
    | ofNat m =>
      simp only [fmtSprintfD] at hdata
      have hm : '-' ∈ Nat.toDigits 10 m := by rw [← hdata]; exact List.mem_cons_self _ _
      have := (toDigits_spec m).2 _ hm
      exact absurd this (by decide)
    | negSucc m =>
      simp only [fmtSprintfD, List.cons.injEq, true_and] at hdata
      have := congrArg decimalValue hdata
      rw [(toDigits_spec (n + 1)).1, (toDigits_spec (m + 1)).1] at this
      have : n = m := by omega
      rw [this]

theorem splitOnSep_ne_nil (sep : Char) (l : List Char) : splitOnSep sep l ≠ [] := by
  cases l with
  | nil => simp [splitOnSep]
  | cons c cs =>
    unfold splitOnSep
    split
    · simp
    · split <;> simp

theorem splitOnSep_no_sep (sep : Char) : ∀ l : List Char, (∀ c ∈ l, c ≠ sep) →
    splitOnSep sep l = [l] := by
  intro l
  induction l with
  | nil => intro _; rfl
  | cons c cs ih =>
    intro h
    have hc : c ≠ sep := h c (List.mem_cons_self _ _)
    have hcs := ih (fun d hd => h d (List.mem_cons_of_mem _ hd))
    simp [splitOnSep, hc, hcs]

theorem splitOnSep_append (sep : Char) : ∀ a b : List Char, (∀ c ∈ a, c ≠ sep) →
    splitOnSep sep (a ++ sep :: b) = a :: splitOnSep sep b := by
  intro a
  induction a with
  | nil => intro b _; simp [splitOnSep]
  | cons c cs ih =>
    intro b h
    have hc : c ≠ sep := h c (List.mem_cons_self _ _)
    have hcs := ih b (fun d hd => h d (List.mem_cons_of_mem _ hd))
    simp [splitOnSep, hc, hcs]

theorem numeral_ne_slash (c : Char) (h : isNumeralChar c = true) : c ≠ '/' := by
  intro hc
  subst hc
  exact absurd h (by decide)

theorem stringsSplit_coasters_id (v : Int) :
    stringsSplit ("/coasters/" ++ fmtSprintfD v) '/' = ["", "coasters", fmtSprintfD v] := by
  have hno : ∀ c ∈ (fmtSprintfD v).data, c ≠ '/' :=
    fun c hc => numeral_ne_slash c (fmtSprintfD_chars v c hc)
  have h1 : ("/coasters/" ++ fmtSprintfD v).data
      = [] ++ '/' :: ("coasters".data ++ '/' :: (fmtSprintfD v).data) := by
    simp [String.data_append]
  unfold stringsSplit
  rw [h1, splitOnSep_append _ _ _ (by simp), splitOnSep_append _ _ _ (by decide),
    splitOnSep_no_sep _ _ hno]
  rfl

theorem fmtSprintfD_ne_random (v : Int) : fmtSprintfD v ≠ "random" := by
  intro h
  have hr : 'r' ∈ (fmtSprintfD v).data := by rw [h]; decide
  exact absurd (fmtSprintfD_chars v _ hr) (by decide)

theorem mapIndex_mapAssign_self (m : List (String × Coaster)) (k : String) (v : Coaster) :
    mapIndex (mapAssign m k v) k = some v := by
  simp [mapAssign, mapIndex]

/-! ## Lemmas on the handlers -/

theorem post_accept (o : Oracle) (r : Request) (e : Exec) (data : String) (c : Coaster)
    (hbody : r.Body = .ok data)
    (hct : headerGet r.Header "content-type" = "application/json")
    (hdec : o.jsonUnmarshal data = .ok c) :
    post o r e =
      { ch := { locked := false,
                store := mapAssign e.ch.store (fmtSprintfD o.unixNano) (storedRecord c o.unixNano) },
        w := e.w,
        trace := e.trace ++ [Event.lock, Event.mapWrite (fmtSprintfD o.unixNano) true,
          Event.unlock],
        panicked := e.panicked } := by
  simp [post, hbody, hct, hdec, Exec.Lock, Exec.storeAssign, Exec.Unlock, storedRecord]

theorem getCoaster_found (o : Oracle) (r : Request) (ch : coastersHandler) (a b id : String)
    (c : Coaster) (hparts : stringsSplit r.Path '/' = [a, b, id]) (hid : id ≠ "random")
    (hc : mapIndex ch.store id = some c) :
    (getCoaster o r (Exec.start ch)).w.response =
        { status := 200, header := [("content-type", "application/json")],
          body := jsonObject c } ∧
      (getCoaster o r (Exec.start ch)).panicked = false ∧
      (getCoaster o r (Exec.start ch)).ch.store = ch.store := by
  simp [getCoaster, hparts, hid, hc, Exec.start, Exec.Lock, Exec.storeIndex, Exec.Unlock,
    Exec.log, Exec.marshal, jsonMarshalCoaster, Exec.HeaderAdd, Exec.WriteHeader, Exec.Write,
    ResponseWriter.new, ResponseWriter.HeaderAdd, ResponseWriter.WriteHeader,
    ResponseWriter.Write, ResponseWriter.response, StatusOK]

theorem post_of_accepted (o : Oracle) (r : Request) (e : Exec) (c : Coaster)
    (h : accepted o r = some c) :
    post o r e =
      { ch := { locked := false,
                store := mapAssign e.ch.store (fmtSprintfD o.unixNano) (storedRecord c o.unixNano) },
        w := e.w,
        trace := e.trace ++ [Event.lock, Event.mapWrite (fmtSprintfD o.unixNano) true,
          Event.unlock],
        panicked := e.panicked } := by
  unfold accepted at h
  cases hb : r.Body with
  | error err => simp [hb] at h
  | ok data =>
    by_cases hct : headerGet r.Header "content-type" = "application/json"
    · cases hd : o.jsonUnmarshal data with
      | error err => simp [hb, hct, hd] at h
      | ok c2 =>
        simp [hb, hct, hd] at h
        subst h
        exact post_accept o r e data c2 hb hct hd
    · simp [hb, hct] at h

theorem post_of_rejected (o : Oracle) (r : Request) (ch : coastersHandler)
    (h : accepted o r = none) :
    (post o r (Exec.start ch)).ch = ch ∧
      succeeded (post o r (Exec.start ch)) = false ∧
      assignedID (post o r (Exec.start ch)) = none := by
  unfold accepted at h
  cases hb : r.Body with
  | error err =>
    simp [post, hb, Exec.start, Exec.WriteHeader, Exec.Write, succeeded, assignedID,
      ResponseWriter.new, ResponseWriter.WriteHeader, ResponseWriter.Write,
      ResponseWriter.response, StatusOK, StatusInternalServerError]
  | ok data =>
    by_cases hct : headerGet r.Header "content-type" = "application/json"
    · cases hd : o.jsonUnmarshal data with
      | error err =>
        simp [post, hb, hct, hd, Exec.start, Exec.WriteHeader, Exec.Write, succeeded,
          assignedID, ResponseWriter.new, ResponseWriter.WriteHeader, ResponseWriter.Write,
          ResponseWriter.response, StatusOK, StatusBadRequest]
      | ok c2 => simp [hb, hct, hd] at h
    · simp [post, hb, hct, Exec.start, Exec.WriteHeader, Exec.Write, succeeded,
        assignedID, ResponseWriter.new, ResponseWriter.WriteHeader, ResponseWriter.Write,
        ResponseWriter.response, StatusOK, StatusUnsupportedMediaType]

theorem post_accepted_facts (o : Oracle) (r : Request) (ch : coastersHandler) (c : Coaster)
    (h : accepted o r = some c) :
    (post o r (Exec.start ch)).ch.store
        = mapAssign ch.store (fmtSprintfD o.unixNano) (storedRecord c o.unixNano) ∧
      succeeded (post o r (Exec.start ch)) = true ∧
      assignedID (post o r (Exec.start ch)) = some (fmtSprintfD o.unixNano) := by
  rw [post_of_accepted o r _ c h]
  simp [Exec.start, succeeded, assignedID, ResponseWriter.new, ResponseWriter.response]

/-! ## C1: insert then get -/

/-- C1. Insert-then-Get round trip: for every handler value, every accepted POST (body read,
content type `application/json`, payload decoded to `c`) served at clock reading `t`, the
record is stored under the id `i`, the decimal text of `t`, and a following `getCoaster` on
the path `/coasters/i` answers 200 with the JSON object of a record whose id is `i` and
whose name, manufacturer, park and height are those of `c`. -/
theorem post_then_getCoaster (ch : coastersHandler) (o o2 : Oracle) (r r2 : Request)
    (data : String) (c : Coaster)
    (hbody : r.Body = .ok data)
    (hct : headerGet r.Header "content-type" = "application/json")
    (hdec : o.jsonUnmarshal data = .ok c)
    (hpath : r2.Path = "/coasters/" ++ fmtSprintfD o.unixNano) :
    ∃ rec : Coaster,
      rec.ID = fmtSprintfD o.unixNano ∧ rec.Name = c.Name ∧
      rec.Manufacturer = c.Manufacturer ∧ rec.InPark = c.InPark ∧ rec.Height = c.Height ∧
      mapIndex (post o r (Exec.start ch)).ch.store (fmtSprintfD o.unixNano) = some rec ∧
      (getCoaster o2 r2 (Exec.start (post o r (Exec.start ch)).ch)).w.response =
        { status := 200, header := [("content-type", "application/json")],
          body := jsonObject rec } ∧
      (getCoaster o2 r2 (Exec.start (post o r (Exec.start ch)).ch)).panicked = false := by
  have hstore : mapIndex (post o r (Exec.start ch)).ch.store (fmtSprintfD o.unixNano)
      = some (storedRecord c o.unixNano) := by
    rw [post_accept o r _ data c hbody hct hdec]
    exact mapIndex_mapAssign_self _ _ _
  have hparts : stringsSplit r2.Path '/' = ["", "coasters", fmtSprintfD o.unixNano] := by
    rw [hpath]; exact stringsSplit_coasters_id _
  have hget := getCoaster_found o2 r2 (post o r (Exec.start ch)).ch _ _ _ _ hparts
    (fmtSprintfD_ne_random _) hstore
  exact ⟨storedRecord c o.unixNano, rfl, rfl, rfl, rfl, rfl, hstore, hget.1, hget.2.1⟩

/-- Witness of C1: the scenario's payload posted to the empty store at clock reading
1600000000000000000 and fetched again. -/
theorem post_then_getCoaster_witness :
    ∃ rec : Coaster,
      rec.ID = "1600000000000000000" ∧ rec.Name = "Fury 325" ∧ rec.Manufacturer = "B&M" ∧
      rec.InPark = "Carowinds" ∧ rec.Height = 99 ∧
      (getCoaster (sampleOracle 1600000000000000777 0)
          (getRequest "/coasters/1600000000000000000")
          (Exec.start (post (sampleOracle 1600000000000000000 0)
            (postRequest "application/json" furyBody)
            (Exec.start newCoastersHandler)).ch)).w.response =
        { status := 200, header := [("content-type", "application/json")],
          body := jsonObject rec } := by
  obtain ⟨rec, h1, h2, h3, h4, h5, _, h7, _⟩ :=
    post_then_getCoaster newCoastersHandler (sampleOracle 1600000000000000000 0)
      (sampleOracle 1600000000000000777 0) (postRequest "application/json" furyBody)
      (getRequest "/coasters/1600000000000000000") furyBody fury rfl (by decide)
      (by simp [sampleOracle, sampleUnmarshal]) (by decide)
  exact ⟨rec, h1, h2, h3, h4, h5, h7⟩

/-! ## C2: the ids of different calls -/

theorem servePosts_mem : ∀ (calls : List (Oracle × Request)) (ch : coastersHandler)
    (p : (Oracle × Request) × Exec), p ∈ (servePosts ch calls).2 →
    ∃ ch2 : coastersHandler, p.2 = post p.1.1 p.1.2 (Exec.start ch2) := by
  intro calls
  induction calls with
  | nil => intro ch p hp; simp [servePosts] at hp
  | cons call rest ih =>
    intro ch p hp
    simp only [servePosts, List.mem_cons] at hp
    rcases hp with hp | hp
    · exact ⟨ch, by rw [hp]⟩
    · exact ih _ p hp

theorem assignedID_post (o : Oracle) (r : Request) (ch : coastersHandler) (a : String)
    (h : assignedID (post o r (Exec.start ch)) = some a) : a = fmtSprintfD o.unixNano := by
  cases hacc : accepted o r with
  | none =>
    rw [(post_of_rejected o r ch hacc).2.2] at h
    exact absurd h (by simp)
  | some c =>
    rw [(post_accepted_facts o r ch c hacc).2.2] at h
    exact (Option.some.inj h).symm

/-- C2 (amended). For every sequence of POST calls served from the empty store, two calls
that both assigned an id and whose clock readings differ assigned different ids. -/
theorem post_ids_distinct (calls : List (Oracle × Request)) (i j : Nat)
    (p q : (Oracle × Request) × Exec) (a b : String)
    (hp : (servePosts newCoastersHandler calls).2[i]? = some p)
    (hq : (servePosts newCoastersHandler calls).2[j]? = some q)
    (ha : assignedID p.2 = some a) (hb : assignedID q.2 = some b)
    (hclock : p.1.1.unixNano ≠ q.1.1.unixNano) : a ≠ b := by
  obtain ⟨ch1, h1⟩ := servePosts_mem calls _ p (List.getElem?_mem hp)
  obtain ⟨ch2, h2⟩ := servePosts_mem calls _ q (List.getElem?_mem hq)
  rw [h1] at ha
  rw [h2] at hb
  rw [assignedID_post _ _ _ _ ha, assignedID_post _ _ _ _ hb]
  exact fun h => hclock (fmtSprintfD_injective _ _ h)

/-- Witness of C2 (amended): two accepted POST calls one nanosecond apart. -/
theorem post_ids_distinct_witness :
    (servePosts newCoastersHandler
        [(sampleOracle 1600000000000000000 0, postRequest "application/json" furyBody),
         (sampleOracle 1600000000000000001 0,
           postRequest "application/json" kingdaBody)]).2.map (fun p => assignedID p.2)
        = [some "1600000000000000000", some "1600000000000000001"] ∧
      ("1600000000000000000" : String) ≠ "1600000000000000001" :=
  ⟨by decide,
    post_ids_distinct
      [(sampleOracle 1600000000000000000 0, postRequest "application/json" furyBody),
       (sampleOracle 1600000000000000001 0, postRequest "application/json" kingdaBody)]
      0 1 _ _ _ _ rfl rfl (by decide) (by decide) (by decide)⟩

/-- Counterexample to C2 as stated: two different accepted POST calls that read the same
clock value, 1600000000000000000, are both assigned the id `1600000000000000000`. -/
theorem post_ids_collide :
    ((servePosts newCoastersHandler
        [(sampleOracle 1600000000000000000 0, postRequest "application/json" furyBody),
         (sampleOracle 1600000000000000000 0, postRequest "application/json" kingdaBody)]).2.map
      (fun p => (succeeded p.2, assignedID p.2)))
      = [(true, some "1600000000000000000"), (true, some "1600000000000000000")] := by
  decide

/-! ## C3: what `get` lists after a sequence of POST calls -/

theorem rangeValues_eq (l : List (String × Coaster)) : rangeValues l = l.map Prod.snd := by
  have h : ∀ (l : List (String × Coaster)) (acc : List Coaster),
      l.foldl (fun cs kv => cs ++ [kv.2]) acc = acc ++ l.map Prod.snd := by
    intro l
    induction l with
    | nil => intro acc; simp
    | cons x xs ih => intro acc; simp [ih]
  simpa [rangeValues] using h l []

theorem rangeKeys_eq (l : List (String × Coaster)) : rangeKeys l = l.map Prod.fst := by
  have h : ∀ (l : List (String × Coaster)) (acc : List String),
      l.foldl (fun ids kv => ids ++ [kv.1]) acc = acc ++ l.map Prod.fst := by
    intro l
    induction l with
    | nil => intro acc; simp
    | cons x xs ih => intro acc; simp [ih]
  simpa [rangeKeys] using h l []

theorem mapAssign_fresh (m : List (String × Coaster)) (k : String) (v : Coaster)
    (h : k ∉ m.map Prod.fst) : mapAssign m k v = (k, v) :: m := by
  unfold mapAssign
  congr 1
  rw [List.filter_eq_self]
  intro kv hkv
  have : kv.1 ≠ k := fun hk => h (hk ▸ List.mem_map_of_mem Prod.fst hkv)
  simpa using this

theorem servePosts_cons (ch : coastersHandler) (call : Oracle × Request)
    (rest : List (Oracle × Request)) :
    servePosts ch (call :: rest) =
      ((servePosts (post call.1 call.2 (Exec.start ch)).ch rest).1,
        (call, post call.1 call.2 (Exec.start ch)) ::
          (servePosts (post call.1 call.2 (Exec.start ch)).ch rest).2) := rfl

theorem succeeded_post (call : Oracle × Request) (ch : coastersHandler) :
    succeeded (post call.1 call.2 (Exec.start ch)) = (writtenEntry call).isSome := by
  unfold writtenEntry
  cases hacc : accepted call.1 call.2 with
  | none => simp [(post_of_rejected _ _ ch hacc).2.1]
  | some c => simp [(post_accepted_facts _ _ ch c hacc).2.1]

theorem servePosts_clocks : ∀ (calls : List (Oracle × Request)) (ch : coastersHandler),
    (((servePosts ch calls).2.filter (fun p => succeeded p.2)).map
        (fun p => fmtSprintfD p.1.1.unixNano)) = (writtenEntries calls).map Prod.fst ∧
      (servePosts ch calls).2.countP (fun p => succeeded p.2) = (writtenEntries calls).length := by
  intro calls
  induction calls with
  | nil => intro ch; simp [servePosts, writtenEntries]
  | cons call rest ih =>
    intro ch
    obtain ⟨ih1, ih2⟩ := ih (post call.1 call.2 (Exec.start ch)).ch
    rw [servePosts_cons]
    have hs := succeeded_post call ch
    cases hw : writtenEntry call with
    | none =>
      rw [hw] at hs
      simp only [Option.isSome_none] at hs
      simp [writtenEntries, List.filterMap_cons, hw, hs, List.filter_cons, List.countP_cons]
      exact ⟨by simpa [writtenEntries] using ih1, by simpa [writtenEntries] using ih2⟩
    | some kv =>
      rw [hw] at hs
      simp only [Option.isSome_some] at hs
      have hk : kv.1 = fmtSprintfD call.1.unixNano := by
        unfold writtenEntry at hw
        cases hacc : accepted call.1 call.2 with
        | none => simp [hacc] at hw
        | some c => simp [hacc] at hw; rw [← hw]
      simp [writtenEntries, List.filterMap_cons, hw, hs, List.filter_cons, List.countP_cons]
      exact ⟨⟨hk.symm, by simpa [writtenEntries] using ih1⟩, by simpa [writtenEntries] using ih2⟩

theorem servePosts_store : ∀ (calls : List (Oracle × Request)) (ch : coastersHandler),
    ((writtenEntries calls).map Prod.fst).Nodup →
    (∀ k ∈ (writtenEntries calls).map Prod.fst, k ∉ ch.store.map Prod.fst) →
    (servePosts ch calls).1.store = (writtenEntries calls).reverse ++ ch.store := by
  intro calls
  induction calls with
  | nil => intro ch _ _; simp [servePosts, writtenEntries]
  | cons call rest ih =>
    intro ch hnd hfresh
    rw [servePosts_cons]
    show (servePosts (post call.1 call.2 (Exec.start ch)).ch rest).1.store = _
    cases hacc : accepted call.1 call.2 with
    | none =>
      have hw : writtenEntry call = none := by simp [writtenEntry, hacc]
      have hwe : writtenEntries (call :: rest) = writtenEntries rest := by
        simp [writtenEntries, List.filterMap_cons, hw]
      rw [hwe] at hnd hfresh ⊢
      rw [(post_of_rejected _ _ ch hacc).1]
      exact ih ch hnd hfresh
    | some c =>
      have hw : writtenEntry call
          = some (fmtSprintfD call.1.unixNano, storedRecord c call.1.unixNano) := by
        simp [writtenEntry, hacc]
      have hwe : writtenEntries (call :: rest)
          = (fmtSprintfD call.1.unixNano, storedRecord c call.1.unixNano)
              :: writtenEntries rest := by
        simp [writtenEntries, List.filterMap_cons, hw]
      rw [hwe] at hnd hfresh ⊢
      simp only [List.map_cons, List.nodup_cons] at hnd
      have hnew : fmtSprintfD call.1.unixNano ∉ ch.store.map Prod.fst :=
        hfresh _ (by simp)
      have hstore := (post_accepted_facts _ _ ch c hacc).1
      rw [mapAssign_fresh _ _ _ hnew] at hstore
      rw [ih _ hnd.2 ?_, hstore]
      · simp
      · intro k hk
        rw [hstore]
        simp only [List.map_cons, List.mem_cons, not_or]
        refine ⟨fun h => hnd.1 (h ▸ hk), hfresh k (by simp [hk])⟩

theorem servePosts_calls : ∀ (calls : List (Oracle × Request)) (ch : coastersHandler),
    (servePosts ch calls).2.map (fun p => p.1) = calls := by
  intro calls
  induction calls with
  | nil => intro ch; simp [servePosts]
  | cons call rest ih => intro ch; rw [servePosts_cons]; simp [ih]

theorem accepted_of_decoded (o : Oracle) (r : Request) (data : String) (c : Coaster)
    (hbody : r.Body = .ok data) (hdec : o.jsonUnmarshal data = .ok c)
    (hsome : (accepted o r).isSome = true) : accepted o r = some c := by
  unfold accepted at hsome ⊢
  by_cases hct : headerGet r.Header "content-type" = "application/json"
  · simp [hbody, hct, hdec]
  · simp [hbody, hct] at hsome

theorem get_response (r : Request) (ch : coastersHandler) :
    (get r (Exec.start ch)).w.response =
        { status := 200, header := [("content-type", "application/json")],
          body := "[" ++ ",".intercalate ((rangeValues ch.store).map jsonObject) ++ "]" } ∧
      (get r (Exec.start ch)).ch.store = ch.store ∧
      (get r (Exec.start ch)).panicked = false := by
  simp [get, Exec.start, Exec.storeLen, Exec.Lock, Exec.storeRange, Exec.Unlock, Exec.log,
    Exec.marshal, jsonMarshalCoasters, Exec.HeaderAdd, Exec.WriteHeader, Exec.Write,
    ResponseWriter.new, ResponseWriter.HeaderAdd, ResponseWriter.WriteHeader,
    ResponseWriter.Write, ResponseWriter.response, StatusOK]

/-- C3 (amended). For every sequence of POST calls served from the empty store in which the
calls that succeeded read pairwise different clock values: the collection `get` gathers
has exactly as many records as there are calls that succeeded, holds no record twice, and
holds for every call that succeeded its decoded payload with the id set to the decimal
text of the call's clock reading; and `get` answers 200 with the JSON array of that
collection. -/
theorem get_lists_every_post (calls : List (Oracle × Request)) (r : Request)
    (hclock : (((servePosts newCoastersHandler calls).2.filter (fun p => succeeded p.2)).map
      (fun p => p.1.1.unixNano)).Nodup) :
    (rangeValues (servePosts newCoastersHandler calls).1.store).length
        = (servePosts newCoastersHandler calls).2.countP (fun p => succeeded p.2) ∧
      (rangeValues (servePosts newCoastersHandler calls).1.store).Nodup ∧
      (∀ p ∈ (servePosts newCoastersHandler calls).2, succeeded p.2 = true →
        ∀ (data : String) (c : Coaster), p.1.2.Body = .ok data →
          p.1.1.jsonUnmarshal data = .ok c →
          { c with ID := fmtSprintfD p.1.1.unixNano }
            ∈ rangeValues (servePosts newCoastersHandler calls).1.store) ∧
      (get r (Exec.start (servePosts newCoastersHandler calls).1)).w.response =
        { status := 200, header := [("content-type", "application/json")],
          body := "[" ++ ",".intercalate
            ((rangeValues (servePosts newCoastersHandler calls).1.store).map jsonObject)
            ++ "]" } := by
  obtain ⟨hk, hcount⟩ := servePosts_clocks calls newCoastersHandler
  have hnd : ((writtenEntries calls).map Prod.fst).Nodup := by
    rw [← hk]
    have := hclock.map (f := fmtSprintfD) (fun a b h => fmtSprintfD_injective a b h)
    simpa [List.map_map] using this
  have hstore := servePosts_store calls newCoastersHandler hnd
    (by intro k _; simp [newCoastersHandler])
  simp only [newCoastersHandler, List.append_nil] at hstore
  have hstore2 : (servePosts newCoastersHandler calls).1.store
      = (writtenEntries calls).reverse := hstore
  have hid : ∀ kv ∈ writtenEntries calls, kv.2.ID = kv.1 := by
    intro kv hkv
    obtain ⟨call, _, hcall⟩ := List.mem_filterMap.1 hkv
    unfold writtenEntry at hcall
    cases hacc : accepted call.1 call.2 with
    | none => simp [hacc] at hcall
    | some c => simp [hacc] at hcall; rw [← hcall]; rfl
  refine ⟨?_, ?_, ?_, (get_response r _).1⟩
  · rw [rangeValues_eq, hstore2, hcount]; simp
  · rw [rangeValues_eq, hstore2, List.map_reverse, List.nodup_reverse]
    have hmap : (writtenEntries calls).map Prod.fst
        = ((writtenEntries calls).map Prod.snd).map Coaster.ID := by
      rw [List.map_map]
      exact List.map_congr_left (fun kv hkv => (hid kv hkv).symm)
    rw [hmap] at hnd
    exact List.Nodup.of_map _ hnd
  · intro p hp hsucc data c hbody hdec
    obtain ⟨ch2, hp2⟩ := servePosts_mem calls _ p hp
    have hcall : p.1 ∈ calls := by
      rw [← servePosts_calls calls newCoastersHandler]
      exact List.mem_map_of_mem (fun p => p.1) hp
    rw [hp2, succeeded_post p.1 ch2] at hsucc
    have hsome : (accepted p.1.1 p.1.2).isSome = true := by
      unfold writtenEntry at hsucc
      simpa using hsucc
    have hacc := accepted_of_decoded _ _ data c hbody hdec hsome
    have hentry : (fmtSprintfD p.1.1.unixNano, storedRecord c p.1.1.unixNano)
        ∈ writtenEntries calls :=
      List.mem_filterMap.2 ⟨p.1, hcall, by simp [writtenEntry, hacc]⟩
    rw [rangeValues_eq, hstore2]
    exact List.mem_map.2 ⟨_, List.mem_reverse.2 hentry, rfl⟩

/-- Witness of C3 (amended): two accepted POST calls one nanosecond apart and a rejected one
in between; `get` gathers two records. -/
theorem get_lists_every_post_witness :
    (rangeValues (servePosts newCoastersHandler
        [(sampleOracle 1600000000000000000 0, postRequest "application/json" furyBody),
         (sampleOracle 1600000000000000000 0, postRequest "text/plain" furyBody),
         (sampleOracle 1600000000000000001 0,
           postRequest "application/json" kingdaBody)]).1.store).length = 2 :=
  (get_lists_every_post
    [(sampleOracle 1600000000000000000 0, postRequest "application/json" furyBody),
     (sampleOracle 1600000000000000000 0, postRequest "text/plain" furyBody),
     (sampleOracle 1600000000000000001 0, postRequest "application/json" kingdaBody)]
    (getRequest "/coasters") (by decide)).1

/-- Counterexample to C3 as stated: two POST calls that both succeed and read the same
clock value, 1600000000000000000. The collection `get` gathers afterwards holds one
record, not two: the record of the first call is gone. -/
theorem get_drops_colliding_post :
    (servePosts newCoastersHandler
        [(sampleOracle 1600000000000000000 0, postRequest "application/json" furyBody),
         (sampleOracle 1600000000000000000 0,
           postRequest "application/json" kingdaBody)]).2.countP (fun p => succeeded p.2) = 2 ∧
      rangeValues (servePosts newCoastersHandler
        [(sampleOracle 1600000000000000000 0, postRequest "application/json" furyBody),
         (sampleOracle 1600000000000000000 0,
           postRequest "application/json" kingdaBody)]).1.store
        = [{ Name := "Kingda Ka", Manufacturer := "Intamin", ID := "1600000000000000000",
             InPark := "", Height := 139 }] := by
  decide

/-! ## C4: every record is stored under its own id -/

theorem getRandomCoaster_store (o : Oracle) (r : Request) (e : Exec) :
    (getRandomCoaster o r e).ch.store = e.ch.store := by
  unfold getRandomCoaster
  simp only [Exec.storeLen, Exec.storeRange, Exec.Lock, Exec.Unlock, Exec.log]
  split
  · rfl
  · split
    · rfl
    · split <;> rfl

theorem getCoaster_store (o : Oracle) (r : Request) (e : Exec) :
    (getCoaster o r e).ch.store = e.ch.store := by
  unfold getCoaster
  simp only [Exec.storeIndex, Exec.Lock, Exec.Unlock, Exec.log, Exec.marshal,
    jsonMarshalCoaster]
  split
  · rfl
  · split
    · rfl
    · split
      · exact getRandomCoaster_store o r e
      · split <;> rfl

theorem get_store (r : Request) (e : Exec) : (get r e).ch.store = e.ch.store := by
  simp [get, Exec.storeLen, Exec.Lock, Exec.storeRange, Exec.Unlock, Exec.log,
    Exec.marshal, jsonMarshalCoasters, Exec.HeaderAdd, Exec.WriteHeader, Exec.Write]

theorem post_store (o : Oracle) (r : Request) (e : Exec) :
    (post o r e).ch.store = e.ch.store ∨
      ∃ c : Coaster, (post o r e).ch.store
        = mapAssign e.ch.store (fmtSprintfD o.unixNano) (storedRecord c o.unixNano) := by
  cases hacc : accepted o r with
  | some c => exact Or.inr ⟨c, by rw [post_of_accepted o r e c hacc]⟩
  | none =>
    left
    unfold accepted at hacc
    cases hb : r.Body with
    | error err => simp [post, hb, Exec.WriteHeader, Exec.Write]
    | ok data =>
      by_cases hct : headerGet r.Header "content-type" = "application/json"
      · cases hd : o.jsonUnmarshal data with
        | error err => simp [post, hb, hct, hd, Exec.WriteHeader, Exec.Write]
        | ok c2 => simp [hb, hct, hd] at hacc
      · simp [post, hb, hct, Exec.WriteHeader, Exec.Write]

/-- The invariant of the store: every record sits under its own id. -/
theorem mapAssign_keyed (m : List (String × Coaster)) (c : Coaster) (now : Int)
    (h : ∀ kv ∈ m, kv.2.ID = kv.1) :
    ∀ kv ∈ mapAssign m (fmtSprintfD now) (storedRecord c now), kv.2.ID = kv.1 := by
  intro kv hkv
  unfold mapAssign at hkv
  rcases List.mem_cons.1 hkv with hkv | hkv
  · rw [hkv]; rfl
  · exact h kv (List.mem_of_mem_filter hkv)

theorem run_keyed (call : Call) (e : Exec) (h : ∀ kv ∈ e.ch.store, kv.2.ID = kv.1) :
    ∀ kv ∈ (call.run e).ch.store, kv.2.ID = kv.1 := by
  have hpost : ∀ (o : Oracle) (r : Request), ∀ kv ∈ (post o r e).ch.store, kv.2.ID = kv.1 := by
    intro o r
    rcases post_store o r e with hs | ⟨c, hs⟩
    · rw [hs]; exact h
    · rw [hs]; exact mapAssign_keyed _ _ _ h
  cases call with
  | get r => show ∀ kv ∈ (get r e).ch.store, _; rw [get_store]; exact h
  | getCoaster o r =>
    show ∀ kv ∈ (getCoaster o r e).ch.store, _; rw [getCoaster_store]; exact h
  | getRandomCoaster o r =>
    show ∀ kv ∈ (getRandomCoaster o r e).ch.store, _; rw [getRandomCoaster_store]; exact h
  | post o r => exact hpost o r
  | coasters o r =>
    show ∀ kv ∈ (coasters o r e).ch.store, _
    unfold coasters
    split
    · rw [get_store]; exact h
    · split
      · exact hpost o r
      · exact h

theorem serve_keyed : ∀ (calls : List Call) (ch : coastersHandler),
    (∀ kv ∈ ch.store, kv.2.ID = kv.1) → ∀ kv ∈ (serve ch calls).store, kv.2.ID = kv.1 := by
  intro calls
  induction calls with
  | nil => intro ch h; exact h
  | cons call rest ih =>
    intro ch h
    exact ih _ (run_keyed call (Exec.start ch) h)

/-- C4. Key/id invariant: in every store reached from the empty store of
`newCoastersHandler` by any sequence of calls of `get`, `getCoaster`, `getRandomCoaster`,
`post` (accepted or rejected) and `coasters`, every record stored under key `k` has its
`ID` field equal to `k`. -/
theorem store_key_is_id (calls : List Call) (k : String) (c : Coaster)
    (h : (k, c) ∈ (serve newCoastersHandler calls).store) : c.ID = k :=
  serve_keyed calls newCoastersHandler (by intro kv hkv; simp [newCoastersHandler] at hkv)
    (k, c) h

/-- Witness of C4: after an accepted POST, a rejected POST, a listing and a random pick the
one stored record carries its key as id. -/
theorem store_key_is_id_witness :
    ({ fury with ID := "1600000000000000000" } : Coaster).ID = "1600000000000000000" :=
  store_key_is_id
    [Call.post (sampleOracle 1600000000000000000 0) (postRequest "application/json" furyBody),
     Call.post (sampleOracle 1600000000000000005 0) (postRequest "application/json" "nonsense"),
     Call.get (getRequest "/coasters"),
     Call.getRandomCoaster (sampleOracle 1600000000000000009 3) (getRequest "/coasters/random")]
    "1600000000000000000" { fury with ID := "1600000000000000000" } (by decide)

/-! ## C5: the random pick -/

theorem mapIndex_isSome_of_mem : ∀ (m : List (String × Coaster)) (k : String),
    k ∈ m.map Prod.fst → (mapIndex m k).isSome = true := by
  intro m
  induction m with
  | nil => intro k hk; simp at hk
  | cons kv rest ih =>
    intro k hk
    obtain ⟨k0, v0⟩ := kv
    by_cases h : k0 = k
    · simp [mapIndex, h]
    · have hk2 : k ∈ rest.map Prod.fst := by
        simp only [List.map_cons, List.mem_cons] at hk
        rcases hk with hk | hk
        · exact absurd hk.symm h
        · exact hk
      simp [mapIndex, h, ih k hk2]

/-- C5. PickRandom: for every store, every clock reading and every raw value of the random
source, `getRandomCoaster` leaves the store as it was and does not panic; on an empty
store it answers 404 with no header at all; on a non-empty store the index drawn lies
within the collected id list, and the answer is 302 with the single header
`location: /coasters/id`, where `id` is the id at that index and a key of the store. -/
theorem getRandomCoaster_spec (ch : coastersHandler) (o : Oracle) (r : Request) :
    (getRandomCoaster o r (Exec.start ch)).ch.store = ch.store ∧
      (getRandomCoaster o r (Exec.start ch)).panicked = false ∧
      (ch.store = [] →
        (getRandomCoaster o r (Exec.start ch)).w.response
          = { status := 404, header := [], body := "" }) ∧
      (ch.store ≠ [] →
        ∃ (i : Nat) (id : String),
          randIntn o.randSource o.unixNano (rangeKeys ch.store).length = some i ∧
          i < (rangeKeys ch.store).length ∧
          (rangeKeys ch.store)[i]? = some id ∧
          id ∈ ch.store.map Prod.fst ∧
          (mapIndex ch.store id).isSome = true ∧
          (getRandomCoaster o r (Exec.start ch)).w.response
            = { status := 302, header := [("location", "/coasters/" ++ id)], body := "" }) := by
  refine ⟨getRandomCoaster_store o r _, ?_⟩
  by_cases hs : ch.store = []
  · simp [getRandomCoaster, hs, rangeKeys, Exec.start, Exec.storeLen, Exec.Lock,
      Exec.storeRange, Exec.Unlock, Exec.log, Exec.WriteHeader, ResponseWriter.new,
      ResponseWriter.WriteHeader, ResponseWriter.response, StatusNotFound]
  · have hlen : 0 < (rangeKeys ch.store).length := by
      rw [rangeKeys_eq, List.length_map]
      exact List.length_pos.2 hs
    have hne : (rangeKeys ch.store).length ≠ 0 := by omega
    have hi : o.randSource o.unixNano % (rangeKeys ch.store).length
        < (rangeKeys ch.store).length := Nat.mod_lt _ hlen
    have hrand : randIntn o.randSource o.unixNano (rangeKeys ch.store).length
        = some (o.randSource o.unixNano % (rangeKeys ch.store).length) := by
      simp [randIntn, hne]
    have hget : (rangeKeys ch.store).get? (o.randSource o.unixNano % (rangeKeys ch.store).length)
        = some ((rangeKeys ch.store)[o.randSource o.unixNano % (rangeKeys ch.store).length]) :=
      List.get?_eq_get hi
    have hmem : (rangeKeys ch.store)[o.randSource o.unixNano % (rangeKeys ch.store).length]
        ∈ ch.store.map Prod.fst := by
      rw [← rangeKeys_eq]
      exact List.getElem_mem _
    have hrun : getRandomCoaster o r (Exec.start ch) =
        ((((Exec.start ch).storeLen.2.Lock).storeRange.2.Unlock).HeaderAdd "location"
          ("/coasters/" ++
            (rangeKeys ch.store)[o.randSource o.unixNano % (rangeKeys ch.store).length])).WriteHeader
          StatusFound := by
      unfold getRandomCoaster
      simp only [Exec.start, Exec.storeLen, Exec.Lock, Exec.storeRange, Exec.log]
      rw [if_neg hne, hrand]
      simp only [hget]
    refine ⟨?_, fun h => absurd h hs, fun _ => ⟨_, _, hrand, hi, ?_, hmem,
      mapIndex_isSome_of_mem _ _ hmem, ?_⟩⟩
    · rw [hrun]; rfl
    · exact List.getElem?_eq_getElem hi
    · rw [hrun]
      simp [Exec.start, Exec.storeLen, Exec.Lock, Exec.storeRange, Exec.Unlock, Exec.log,
        Exec.HeaderAdd, Exec.WriteHeader, ResponseWriter.new, ResponseWriter.HeaderAdd,
        ResponseWriter.WriteHeader, ResponseWriter.response, StatusFound]

/-- Witness of C5: on the empty store the answer is 404 without headers, and on the store
holding one coaster the raw value 7 draws index 0 and the answer redirects to its id. -/
theorem getRandomCoaster_spec_witness :
    (getRandomCoaster (sampleOracle 1600000000000000009 7) (getRequest "/coasters/random")
        (Exec.start newCoastersHandler)).w.response
        = { status := 404, header := [], body := "" } ∧
      ∃ (i : Nat) (id : String),
        randIntn (sampleOracle 1600000000000000009 7).randSource 1600000000000000009
          (rangeKeys furyStore.store).length = some i ∧
        i < (rangeKeys furyStore.store).length ∧
        (rangeKeys furyStore.store)[i]? = some id ∧
        id ∈ furyStore.store.map Prod.fst ∧
        (mapIndex furyStore.store id).isSome = true ∧
        (getRandomCoaster (sampleOracle 1600000000000000009 7)
          (getRequest "/coasters/random") (Exec.start furyStore)).w.response
          = { status := 302, header := [("location", "/coasters/" ++ id)], body := "" } :=
  ⟨(getRandomCoaster_spec newCoastersHandler (sampleOracle 1600000000000000009 7)
      (getRequest "/coasters/random")).2.2.1 rfl,
    (getRandomCoaster_spec furyStore (sampleOracle 1600000000000000009 7)
      (getRequest "/coasters/random")).2.2.2 (by decide)⟩

/-! ## C6: fetching one coaster -/

/-- Counterexample to C6 as stated: the store holds one coaster under the id
`1600000000000000000` and the path is `/coasters/random`. The path splits into exactly
three parts and no record has the id `random`, yet the answer is 302, not 404. -/
theorem getCoaster_random_not_404 :
    stringsSplit (getRequest "/coasters/random").Path '/' = ["", "coasters", "random"] ∧
      mapIndex furyStore.store "random" = none ∧
      (getCoaster (sampleOracle 1600000000000000009 7) (getRequest "/coasters/random")
        (Exec.start furyStore)).w.response
        = { status := 302, header := [("location", "/coasters/1600000000000000000")],
            body := "" } := by
  decide

/-- C6 (amended). For every store and every request path: `getCoaster` answers 404 when
the path does not split on `/` into exactly three parts; when it splits into three parts
of which the third, the id, is not `random`, it answers 404 if no record has that id and
200 with the JSON object of the record if one has; and when the third part is `random`,
it does exactly what `getRandomCoaster` does on the same request and state (so 404 on the
empty store). The store is left as it was. -/
theorem getCoaster_spec (ch : coastersHandler) (o : Oracle) (r : Request) :
    (getCoaster o r (Exec.start ch)).ch.store = ch.store ∧
      ((stringsSplit r.Path '/').length ≠ 3 →
        (getCoaster o r (Exec.start ch)).w.response
          = { status := 404, header := [], body := "" }) ∧
      (∀ a b id : String, stringsSplit r.Path '/' = [a, b, id] → id ≠ "random" →
        (mapIndex ch.store id = none →
          (getCoaster o r (Exec.start ch)).w.response
            = { status := 404, header := [], body := "" }) ∧
        (∀ c : Coaster, mapIndex ch.store id = some c →
          (getCoaster o r (Exec.start ch)).w.response
            = { status := 200, header := [("content-type", "application/json")],
                body := jsonObject c })) ∧
      (∀ a b : String, stringsSplit r.Path '/' = [a, b, "random"] →
        getCoaster o r (Exec.start ch) = getRandomCoaster o r (Exec.start ch) ∧
        (ch.store = [] →
          (getCoaster o r (Exec.start ch)).w.response
            = { status := 404, header := [], body := "" })) := by
  refine ⟨getCoaster_store o r _, ?_, ?_, ?_⟩
  rotate_left 2
  · intro a b hparts
    have hrun : getCoaster o r (Exec.start ch) = getRandomCoaster o r (Exec.start ch) := by
      simp [getCoaster, hparts]
    refine ⟨hrun, fun hs => ?_⟩
    rw [hrun]
    simp [getRandomCoaster, hs, rangeKeys, Exec.start, Exec.storeLen, Exec.Lock,
      Exec.storeRange, Exec.Unlock, Exec.log, Exec.WriteHeader, ResponseWriter.new,
      ResponseWriter.WriteHeader, ResponseWriter.response, StatusNotFound]
  · intro hlen
    simp [getCoaster, hlen, Exec.start, Exec.WriteHeader, ResponseWriter.new,
      ResponseWriter.WriteHeader, ResponseWriter.response, StatusNotFound]
  · intro a b id hparts hid
    refine ⟨?_, fun c hc => (getCoaster_found o r ch a b id c hparts hid hc).1⟩
    intro hnone
    simp [getCoaster, hparts, hid, hnone, Exec.start, Exec.Lock, Exec.storeIndex,
      Exec.Unlock, Exec.log, Exec.WriteHeader, ResponseWriter.new,
      ResponseWriter.WriteHeader, ResponseWriter.response, StatusNotFound]

/-- Witness of C6 (amended): on the store holding one coaster, a path of two parts and a
path with an unknown id answer 404, and the path with the stored id answers 200; the path
`/coasters/random` is served as by `getRandomCoaster`, which on the empty store answers
404. -/
theorem getCoaster_spec_witness :
    (getCoaster (sampleOracle 1600000000000000009 7) (getRequest "/coasters")
        (Exec.start furyStore)).w.response = { status := 404, header := [], body := "" } ∧
      (getCoaster (sampleOracle 1600000000000000009 7) (getRequest "/coasters/does-not-exist")
        (Exec.start furyStore)).w.response = { status := 404, header := [], body := "" } ∧
      (getCoaster (sampleOracle 1600000000000000009 7)
        (getRequest "/coasters/1600000000000000000") (Exec.start furyStore)).w.response
        = { status := 200, header := [("content-type", "application/json")],
            body := jsonObject { fury with ID := "1600000000000000000" } } ∧
      getCoaster (sampleOracle 1600000000000000009 7) (getRequest "/coasters/random")
          (Exec.start furyStore)
        = getRandomCoaster (sampleOracle 1600000000000000009 7)
          (getRequest "/coasters/random") (Exec.start furyStore) ∧
      (getCoaster (sampleOracle 1600000000000000009 7) (getRequest "/coasters/random")
        (Exec.start newCoastersHandler)).w.response
        = { status := 404, header := [], body := "" } :=
  ⟨(getCoaster_spec furyStore (sampleOracle 1600000000000000009 7)
      (getRequest "/coasters")).2.1 (by decide),
    ((getCoaster_spec furyStore (sampleOracle 1600000000000000009 7)
      (getRequest "/coasters/does-not-exist")).2.2.1 "" "coasters" "does-not-exist"
        (by decide) (by decide)).1 (by decide),
    ((getCoaster_spec furyStore (sampleOracle 1600000000000000009 7)
      (getRequest "/coasters/1600000000000000000")).2.2.1 "" "coasters" "1600000000000000000"
        (by decide) (by decide)).2 _ (by decide),
    ((getCoaster_spec furyStore (sampleOracle 1600000000000000009 7)
      (getRequest "/coasters/random")).2.2.2 "" "coasters" (by decide)).1,
    ((getCoaster_spec newCoastersHandler (sampleOracle 1600000000000000009 7)
      (getRequest "/coasters/random")).2.2.2 "" "coasters" (by decide)).2 rfl⟩

/-! ## C7: the admin gate -/

/-- C7. Admin gate: for every configured secret and every request, `adminPortal.handler`
answers 200 with body `Welcome admin.` if and only if `r.BasicAuth()` reports credentials
(ok), the username is `admin` and the password is the configured secret; in every other
case it answers 401 with body `Unauthorized`. -/
theorem adminPortal_handler_spec (ap : adminPortal) (r : Request) :
    ((ap.handler r ResponseWriter.new).response
        = { status := 200, header := [], body := "Welcome admin." } ↔
      (r.BasicAuth.2.2 = true ∧ r.BasicAuth.1 = "admin" ∧ r.BasicAuth.2.1 = ap.password)) ∧
    (¬ (r.BasicAuth.2.2 = true ∧ r.BasicAuth.1 = "admin" ∧ r.BasicAuth.2.1 = ap.password) →
      (ap.handler r ResponseWriter.new).response
        = { status := 401, header := [], body := "Unauthorized" }) := by
  by_cases h : r.BasicAuth.2.2 = true ∧ r.BasicAuth.1 = "admin" ∧ r.BasicAuth.2.1 = ap.password
  · obtain ⟨h1, h2, h3⟩ := h
    simp [adminPortal.handler, h1, h2, h3, ResponseWriter.new, ResponseWriter.Write,
      ResponseWriter.WriteHeader, ResponseWriter.response, StatusOK]
  · have hcond : (!r.BasicAuth.2.2 || decide (r.BasicAuth.1 ≠ "admin")
        || decide (r.BasicAuth.2.1 ≠ ap.password)) = true := by
      by_cases h1 : r.BasicAuth.2.2 = true
      · by_cases h2 : r.BasicAuth.1 = "admin"
        · have h3 : r.BasicAuth.2.1 ≠ ap.password := fun h3 => h ⟨h1, h2, h3⟩
          simp [h3]
        · simp [h2]
      · simp [h1]
    have hresp : (ap.handler r ResponseWriter.new).response
        = { status := 401, header := [], body := "Unauthorized" } := by
      unfold adminPortal.handler
      simp only [hcond, if_true]
      simp [ResponseWriter.new, ResponseWriter.Write, ResponseWriter.WriteHeader,
        ResponseWriter.response, StatusUnauthorized]
    refine ⟨⟨fun h200 => ?_, fun hyes => absurd hyes h⟩, fun _ => hresp⟩
    rw [hresp] at h200
    exact absurd h200 (by decide)

/-! ## C8 and C9: rejected POST requests -/

/-- C8. Content-type rejection: for every handler value, every body content that was read
and every value of the `content-type` header other than `application/json` (the empty
value of an absent header included), `post` answers 415 with the message naming the value
it got, leaves the handler value as it was and assigns no id. -/
theorem post_rejects_content_type (ch : coastersHandler) (o : Oracle) (r : Request)
    (data : String) (hbody : r.Body = .ok data)
    (hct : headerGet r.Header "content-type" ≠ "application/json") :
    (post o r (Exec.start ch)).w.response
        = { status := 415, header := [],
            body := "expected content-type 'application/json', got '"
              ++ headerGet r.Header "content-type" ++ "'" } ∧
      (post o r (Exec.start ch)).ch = ch ∧
      assignedID (post o r (Exec.start ch)) = none := by
  simp [post, hbody, hct, Exec.start, Exec.WriteHeader, Exec.Write, assignedID,
    ResponseWriter.new, ResponseWriter.WriteHeader, ResponseWriter.Write,
    ResponseWriter.response, StatusOK, StatusUnsupportedMediaType]

/-- Witness of C8: a valid JSON body sent without any `content-type` header. -/
theorem post_rejects_content_type_witness :
    (post (sampleOracle 1600000000000000000 0)
        { Method := "POST", Path := "/coasters", Header := [], Body := .ok furyBody,
          BasicAuth := ("", "", false) }
        (Exec.start furyStore)).w.response
        = { status := 415, header := [],
            body := "expected content-type 'application/json', got ''" } ∧
      (post (sampleOracle 1600000000000000000 0)
        { Method := "POST", Path := "/coasters", Header := [], Body := .ok furyBody,
          BasicAuth := ("", "", false) }
        (Exec.start furyStore)).ch = furyStore :=
  ⟨(post_rejects_content_type furyStore (sampleOracle 1600000000000000000 0)
      { Method := "POST", Path := "/coasters", Header := [], Body := .ok furyBody,
        BasicAuth := ("", "", false) } furyBody rfl (by decide)).1,
    (post_rejects_content_type furyStore (sampleOracle 1600000000000000000 0)
      { Method := "POST", Path := "/coasters", Header := [], Body := .ok furyBody,
        BasicAuth := ("", "", false) } furyBody rfl (by decide)).2.1⟩

/-- C9. Malformed-body rejection: for every handler value and every request with content
type `application/json` whose body was read and fails to decode with error `err`, `post`
answers 400 with the error text, leaves the handler value as it was and assigns no id. -/
theorem post_rejects_malformed_body (ch : coastersHandler) (o : Oracle) (r : Request)
    (data err : String) (hbody : r.Body = .ok data)
    (hct : headerGet r.Header "content-type" = "application/json")
    (hdec : o.jsonUnmarshal data = .error err) :
    (post o r (Exec.start ch)).w.response = { status := 400, header := [], body := err } ∧
      (post o r (Exec.start ch)).ch = ch ∧
      assignedID (post o r (Exec.start ch)) = none := by
  simp [post, hbody, hct, hdec, Exec.start, Exec.WriteHeader, Exec.Write, assignedID,
    ResponseWriter.new, ResponseWriter.WriteHeader, ResponseWriter.Write,
    ResponseWriter.response, StatusOK, StatusBadRequest]

/-- Witness of C9: the body `nonsense` sent as `application/json`. -/
theorem post_rejects_malformed_body_witness :
    (post (sampleOracle 1600000000000000000 0) (postRequest "application/json" "nonsense")
        (Exec.start furyStore)).w.response
        = { status := 400, header := [],
            body := "invalid character 'o' in literal null (expecting 'u')" } ∧
      (post (sampleOracle 1600000000000000000 0) (postRequest "application/json" "nonsense")
        (Exec.start furyStore)).ch = furyStore :=
  ⟨(post_rejects_malformed_body furyStore (sampleOracle 1600000000000000000 0)
      (postRequest "application/json" "nonsense") "nonsense" _ rfl (by decide)
      (by simp [sampleOracle, sampleUnmarshal, furyBody, kingdaBody])).1,
    (post_rejects_malformed_body furyStore (sampleOracle 1600000000000000000 0)
      (postRequest "application/json" "nonsense") "nonsense"
      "invalid character 'o' in literal null (expecting 'u')" rfl (by decide)
      (by simp [sampleOracle, sampleUnmarshal, furyBody, kingdaBody])).2.1⟩

/-! ## C10: the lock discipline -/

theorem getCoaster_trace (o : Oracle) (r : Request) (store : List (String × Coaster))
    (a b id : String) (hparts : stringsSplit r.Path '/' = [a, b, id]) (hid : id ≠ "random") :
    lockDiscipline (getCoaster o r (Exec.start { locked := false, store := store })).trace
      = true := by
  cases hc : mapIndex store id <;>
    simp [getCoaster, hparts, hid, hc, Exec.start, Exec.Lock, Exec.storeIndex, Exec.Unlock,
      Exec.log, Exec.marshal, jsonMarshalCoaster, Exec.HeaderAdd, Exec.WriteHeader,
      Exec.Write, lockDiscipline, Event.disciplined]

theorem post_trace (o : Oracle) (r : Request) (store : List (String × Coaster)) :
    lockDiscipline (post o r (Exec.start { locked := false, store := store })).trace
      = true := by
  cases hacc : accepted o r with
  | some c =>
    rw [post_of_accepted o r _ c hacc]
    simp [Exec.start, lockDiscipline, Event.disciplined]
  | none =>
    unfold accepted at hacc
    cases hb : r.Body with
    | error err =>
      simp [post, hb, Exec.start, Exec.WriteHeader, Exec.Write, lockDiscipline,
        Event.disciplined]
    | ok data =>
      by_cases hct : headerGet r.Header "content-type" = "application/json"
      · cases hd : o.jsonUnmarshal data with
        | error err =>
          simp [post, hb, hct, hd, Exec.start, Exec.WriteHeader, Exec.Write, lockDiscipline,
            Event.disciplined]
        | ok c2 => simp [hb, hct, hd] at hacc
      · simp [post, hb, hct, Exec.start, Exec.WriteHeader, Exec.Write, lockDiscipline,
          Event.disciplined]

/-- C10 (the code departs from it). On every store, with the mutex free at entry, `get`
makes exactly these steps: it reads the map (`len(ch.store)`) with the mutex NOT held,
locks, reads the map, unlocks, produces JSON and writes the response with the mutex free.
The first step breaks the lock discipline; so does the first step of
`getRandomCoaster`. -/
theorem get_reads_store_unlocked (store : List (String × Coaster)) (o : Oracle)
    (r : Request) :
    (get r (Exec.start { locked := false, store := store })).trace
        = [Event.mapRead false, Event.lock, Event.mapRead true, Event.unlock,
           Event.marshal false, Event.respond false, Event.respond false,
           Event.respond false] ∧
      lockDiscipline (get r (Exec.start { locked := false, store := store })).trace = false ∧
      (getRandomCoaster o r (Exec.start { locked := false, store := store })).trace.head?
        = some (Event.mapRead false) ∧
      lockDiscipline
        (getRandomCoaster o r (Exec.start { locked := false, store := store })).trace
        = false := by
  have hget : (get r (Exec.start { locked := false, store := store })).trace
      = [Event.mapRead false, Event.lock, Event.mapRead true, Event.unlock,
         Event.marshal false, Event.respond false, Event.respond false,
         Event.respond false] := by
    simp [get, Exec.start, Exec.storeLen, Exec.Lock, Exec.storeRange, Exec.Unlock, Exec.log,
      Exec.marshal, jsonMarshalCoasters, Exec.HeaderAdd, Exec.WriteHeader, Exec.Write]
  have hrand : ∃ rest, (getRandomCoaster o r
      (Exec.start { locked := false, store := store })).trace
        = Event.mapRead false :: rest := by
    unfold getRandomCoaster
    simp only [Exec.start, Exec.storeLen, Exec.Lock, Exec.storeRange, Exec.Unlock, Exec.log,
      Exec.HeaderAdd, Exec.WriteHeader, Exec.panic]
    split
    · exact ⟨_, rfl⟩
    · split
      · exact ⟨_, rfl⟩
      · split <;> exact ⟨_, rfl⟩
  obtain ⟨rest, hrest⟩ := hrand
  refine ⟨hget, ?_, ?_, ?_⟩
  · rw [hget]; rfl
  · rw [hrest]; rfl
  · rw [hrest]; simp [lockDiscipline, Event.disciplined]

end CoasterAPI
